import Mathlib

/-!
Verification development for the FHIRBrush core: the FHIR-bundle-to-graph
mapper (`frontend/src/fhirToNodes.ts`), the threshold classifier, the
streaming reconciliation handler (`frontend/src/App.tsx`), and the patient
ranking view (`frontend/src/PatientDots.tsx`), shallowly embedded in Lean.

Modelling conventions:
* TypeScript declares identifier fields as `id : string`, but JavaScript
  performs no runtime check and malformed payloads can reach the mapper with
  the field absent; identifier fields are therefore embedded as
  `Option String`, with `jsStr` giving the template-literal rendering
  (`${undefined}` renders as the six-character string "undefined").
* `effectiveDateTime` is an ISO-8601 string in the source, consumed only
  through `new Date(s).getTime()`; it is embedded directly by that parsed
  value in milliseconds since the epoch (an `Int`, negative for dates before
  1970). A missing field is `none`; the source's `new Date(o ?? 0)` then
  yields epoch time 0.
* JavaScript numbers on the paths the claims touch are exact decimals; they
  are embedded as rationals.
* `Array.prototype.sort` with a comparator is required to be stable
  (ECMAScript 2019); a stable sort by a key-comparator is embedded as
  `List.insertionSort` with the corresponding non-strict relation, which is
  stable in the same sense (ties keep input order).
* Display-only payload (labels, colors, CSS style objects, patient names)
  has no effect on any control decision and is omitted from the embedding;
  node positions, which the source computes from the iteration index, are
  kept.
-/

namespace FhirBrush

/-- JavaScript template-literal rendering of a possibly-absent string field:
`${undefined}` renders as "undefined". -/
def jsStr : Option String → String
  | some s => s
  | none => "undefined"

/-- One entry of `code.coding` (types.ts). -/
structure Coding where
  code : Option String
  display : Option String
deriving DecidableEq

/-- The `code` field of an Observation: `{ text?: string; coding?: {...}[] }`. -/
structure CodeableText where
  text : Option String
  coding : Option (List Coding)
deriving DecidableEq

/-- `valueQuantity`: `{ value: number; unit: string }`. -/
structure Quantity where
  value : ℚ
  unit : String
deriving DecidableEq

/-- FhirObservation (types.ts); `effectiveDateTime` is embedded by its parsed
epoch-millisecond value, `_step` is the simulation step ordinal. -/
structure FhirObservation where
  id : Option String
  code : CodeableText
  effectiveDateTime : Option Int
  valueQuantity : Option Quantity
  _step : Option Int
deriving DecidableEq

/-- FhirPatient (types.ts); name/gender/birthDate are display-only. -/
structure FhirPatient where
  id : Option String
deriving DecidableEq

/-- FhirCondition (types.ts); code/onset/clinicalStatus are display-only. -/
structure FhirCondition where
  id : Option String
deriving DecidableEq

/-- FhirMedication (types.ts); concept/dosage/status are display-only. -/
structure FhirMedication where
  id : Option String
deriving DecidableEq

/-- FhirEncounter (types.ts); type/period/status are display-only. -/
structure FhirEncounter where
  id : Option String
deriving DecidableEq

/-- FhirBundle (types.ts). -/
structure FhirBundle where
  patient : FhirPatient
  conditions : List FhirCondition
  observations : List FhirObservation
  medications : List FhirMedication
  encounters : List FhirEncounter
deriving DecidableEq

/-- Alert thresholds, fhirToNodes.ts lines 14-20. The decimal literals
1.5, 5.5, 9.0 are written as the rationals 3/2, 11/2, 9. -/
def THRESHOLDS : String → Option ℚ := fun code =>
  if code = "2160-0" then some (3/2)
  else if code = "2823-3" then some (11/2)
  else if code = "33914-3" then some 30
  else if code = "4548-4" then some 9
  else if code = "3094-0" then some 40
  else none

/-- `loincCode` (fhirToNodes.ts lines 22-24): `obs.code?.coding?.[0]?.code ?? ''`. -/
def loincCode (o : FhirObservation) : String :=
  ((((o.code.coding.getD []).head?).bind Coding.code).getD "")

/-- `isAbnormal` (fhirToNodes.ts lines 26-35): missing value or empty code
fails closed; unknown code fails closed; eGFR (33914-3) alerts strictly
below its threshold, every other coded rule strictly above. -/
def isAbnormal (o : FhirObservation) : Bool :=
  let code := loincCode o
  match o.valueQuantity with
  | none => false
  | some q =>
    if code = "" then false
    else
      match THRESHOLDS code with
      | none => false
      | some threshold =>
        if code = "33914-3" then decide (q.value < threshold)
        else decide (threshold < q.value)

/-- `new Date(o.effectiveDateTime ?? 0).getTime()` (fhirToNodes.ts
lines 105-106): a missing timestamp is read as epoch 0. -/
def getTime (o : FhirObservation) : Int :=
  o.effectiveDateTime.getD 0

/-- A React Flow node, restricted to the fields the mapper computes from
data (identifier and position); label and style payload are display-only. -/
structure Node where
  id : String
  x : Int
  y : Int
deriving DecidableEq

/-- A React Flow edge as the mapper builds it; `animated` is absent (false)
except where the source sets it. -/
structure Edge where
  id : String
  source : String
  target : String
  animated : Bool
deriving DecidableEq

/-- The comparator `(a, b) => time(b) - time(a)` sorts descending by
timestamp; as a non-strict relation for the stable sort this is
`getTime b ≤ getTime a`. -/
def obsGE (a b : FhirObservation) : Prop :=
  getTime b ≤ getTime a

instance : DecidableRel obsGE := fun a b =>
  inferInstanceAs (Decidable (getTime b ≤ getTime a))

instance : IsTotal FhirObservation obsGE :=
  ⟨fun a b => le_total (getTime b) (getTime a)⟩

instance : IsTrans FhirObservation obsGE :=
  ⟨fun _ _ _ h1 h2 => le_trans h2 h1⟩

/-- `[...bundle.observations].sort((a, b) => time(b) - time(a))`
(fhirToNodes.ts lines 103-107): stable sort, descending by timestamp. -/
def sortObs (l : List FhirObservation) : List FhirObservation :=
  List.insertionSort obsGE l

/-- `const displayed = sorted.slice(0, 12)` (fhirToNodes.ts line 108). -/
def displayedObs (b : FhirBundle) : List FhirObservation :=
  (sortObs b.observations).take 12

/-- `patient-${bundle.patient.id}` (fhirToNodes.ts line 47). -/
def patientNodeId (b : FhirBundle) : String :=
  "patient-" ++ jsStr b.patient.id

/-- `condition-${c.id}` (fhirToNodes.ts line 74). -/
def condNodeId (c : FhirCondition) : String :=
  "condition-" ++ jsStr c.id

/-- `obs-${o.id}` (fhirToNodes.ts line 110). -/
def obsNodeId (o : FhirObservation) : String :=
  "obs-" ++ jsStr o.id

/-- `med-${m.id}` (fhirToNodes.ts line 149). -/
def medNodeId (m : FhirMedication) : String :=
  "med-" ++ jsStr m.id

/-- `enc-${enc.id}` (fhirToNodes.ts line 181). -/
def encNodeId (e : FhirEncounter) : String :=
  "enc-" ++ jsStr e.id

/-- Common shape of the four `forEach((r, i) => { if (has(nid)) return;
nodes.push(...) })` blocks of `fhirToGraph`: walk the list with the
iteration index, skip a resource whose derived identifier is already in
`S`, otherwise emit the node built by `mk` (the index advances whether or
not the resource was skipped, exactly as `forEach` indices do). -/
def guardedNodes (nid : α → String) (mk : ℕ → α → Node) (S : List String) :
    ℕ → List α → List Node
  | _, [] => []
  | i, a :: as =>
    (if nid a ∈ S then [] else [mk i a]) ++ guardedNodes nid mk S (i + 1) as

/-- Common shape of the matching `edges.push` calls: one edge per emitted
node, under the same skip guard. -/
def guardedEdges (nid : α → String) (mkE : α → Edge) (S : List String)
    (l : List α) : List Edge :=
  l.filterMap fun a => if nid a ∈ S then none else some (mkE a)

/-- Patient node (fhirToNodes.ts lines 46-70): a single centered node,
skipped when already materialized. -/
def patientNodes (b : FhirBundle) (S : List String) : List Node :=
  if patientNodeId b ∈ S then []
  else [{ id := patientNodeId b, x := 600, y := 400 }]

/-- The condition node literal (fhirToNodes.ts lines 79-93): left column,
`y = 80 + i * 110`. -/
def condMk : ℕ → FhirCondition → Node := fun i c =>
  { id := condNodeId c, x := 60, y := 80 + (i : Int) * 110 }

/-- The condition edge literal (fhirToNodes.ts lines 94-99). -/
def condEdgeMk (b : FhirBundle) : FhirCondition → Edge := fun c =>
  { id := "e-" ++ patientNodeId b ++ "-" ++ condNodeId c
    source := patientNodeId b, target := condNodeId c, animated := false }

/-- Condition nodes (fhirToNodes.ts lines 72-93). -/
def condNodes (b : FhirBundle) (S : List String) : List Node :=
  guardedNodes condNodeId condMk S 0 b.conditions

/-- Condition edges (fhirToNodes.ts lines 94-99). -/
def condEdges (b : FhirBundle) (S : List String) : List Edge :=
  guardedEdges condNodeId (condEdgeMk b) S b.conditions

/-- The observation node literal (fhirToNodes.ts lines 117-137):
`col = 1000 + floor(i / 6) * 220`, `row = (i % 6) * 100 + 80`. -/
def obsMk : ℕ → FhirObservation → Node := fun i o =>
  { id := obsNodeId o, x := 1000 + ((i / 6 : ℕ) : Int) * 220
    y := ((i % 6 : ℕ) : Int) * 100 + 80 }

/-- The observation edge literal (fhirToNodes.ts lines 138-144): animated
iff the observation is abnormal. -/
def obsEdgeMk (b : FhirBundle) : FhirObservation → Edge := fun o =>
  { id := "e-" ++ patientNodeId b ++ "-" ++ obsNodeId o
    source := patientNodeId b, target := obsNodeId o
    animated := isAbnormal o }

/-- Observation nodes (fhirToNodes.ts lines 109-137): over the displayed
most-recent 12. -/
def obsNodes (b : FhirBundle) (S : List String) : List Node :=
  guardedNodes obsNodeId obsMk S 0 (displayedObs b)

/-- Observation edges (fhirToNodes.ts lines 138-144). -/
def obsEdges (b : FhirBundle) (S : List String) : List Edge :=
  guardedEdges obsNodeId (obsEdgeMk b) S (displayedObs b)

/-- The medication node literal (fhirToNodes.ts lines 155-170): bottom row,
`x = 200 + i * 180`. -/
def medMk : ℕ → FhirMedication → Node := fun i m =>
  { id := medNodeId m, x := 200 + (i : Int) * 180, y := 780 }

/-- The medication edge literal (fhirToNodes.ts lines 171-176). -/
def medEdgeMk (b : FhirBundle) : FhirMedication → Edge := fun m =>
  { id := "e-" ++ patientNodeId b ++ "-" ++ medNodeId m
    source := patientNodeId b, target := medNodeId m, animated := false }

/-- Medication nodes (fhirToNodes.ts lines 147-170). -/
def medNodes (b : FhirBundle) (S : List String) : List Node :=
  guardedNodes medNodeId medMk S 0 b.medications

/-- Medication edges (fhirToNodes.ts lines 171-176). -/
def medEdges (b : FhirBundle) (S : List String) : List Edge :=
  guardedEdges medNodeId (medEdgeMk b) S b.medications

/-- The encounter node literal (fhirToNodes.ts lines 187-202):
`y = 100 + i * 120`. -/
def encMk : ℕ → FhirEncounter → Node := fun i e =>
  { id := encNodeId e, x := -200, y := 100 + (i : Int) * 120 }

/-- The encounter edge literal (fhirToNodes.ts lines 203-208). -/
def encEdgeMk (b : FhirBundle) : FhirEncounter → Edge := fun e =>
  { id := "e-" ++ patientNodeId b ++ "-" ++ encNodeId e
    source := patientNodeId b, target := encNodeId e, animated := false }

/-- Encounter nodes (fhirToNodes.ts lines 179-202): only
`encounters.slice(0, 5)` is walked. -/
def encNodes (b : FhirBundle) (S : List String) : List Node :=
  guardedNodes encNodeId encMk S 0 (b.encounters.take 5)

/-- Encounter edges (fhirToNodes.ts lines 203-208). -/
def encEdges (b : FhirBundle) (S : List String) : List Edge :=
  guardedEdges encNodeId (encEdgeMk b) S (b.encounters.take 5)

/-- `fhirToGraph` (fhirToNodes.ts lines 39-212): sections in push order —
patient, conditions, observations (most recent 12), medications, the first
five encounters; edges in the same order (the patient node has no edge). -/
def fhirToGraph (b : FhirBundle) (existingNodeIds : List String) :
    List Node × List Edge :=
  (patientNodes b existingNodeIds ++ condNodes b existingNodeIds ++
      obsNodes b existingNodeIds ++ medNodes b existingNodeIds ++
      encNodes b existingNodeIds,
    condEdges b existingNodeIds ++ obsEdges b existingNodeIds ++
      medEdges b existingNodeIds ++ encEdges b existingNodeIds)

/-- `simObsToNode` (fhirToNodes.ts lines 215-243): one live node for a
streamed observation; `step = obs._step ?? 0`, position
`x = 1440 + step * 20`, `y = 200 + (step % 5) * 80` (JavaScript `%` is
truncating remainder, `Int.tmod`). -/
def simObsToNode (o : FhirObservation) : Node :=
  let step := o._step.getD 0
  { id := "obs-" ++ jsStr o.id, x := 1440 + step * 20
    y := 200 + Int.tmod step 5 * 80 }

/-- A polling payload, `{ type: string; data: FhirObservation }`
(App.tsx line 98). -/
structure Msg where
  type : String
  data : FhirObservation
deriving DecidableEq

/-- The stream-reconciliation state owned by `App` (App.tsx lines 26-34):
the active patient id, the `existingNodeIds` ref (a JS `Set`, embedded by
its membership list in insertion order), and the rendered nodes/edges.
The event log and fetched severity list are display-only. -/
structure AppState where
  activePid : String
  materialized : List String
  nodes : List Node
  edges : List Edge
deriving DecidableEq

/-- `handleObservation` (App.tsx lines 98-121): ignore any message that is
not a `new_observation`; build the live node; if its id is already in the
materialized set, do nothing; otherwise add the id to the set and append
one node and one live edge whose source uses the `activePid` captured by
the closure (`closurePid`). -/
def handleObservation (closurePid : String) (st : AppState) (msg : Msg) :
    AppState :=
  if msg.type ≠ "new_observation" then st
  else
    let newNode := simObsToNode msg.data
    if newNode.id ∈ st.materialized then st
    else
      { st with
        materialized := st.materialized ++ [newNode.id]
        nodes := st.nodes ++ [newNode]
        edges := st.edges ++
          [{ id := "e-patient-" ++ newNode.id
             source := "patient-" ++ closurePid, target := newNode.id
             animated := true }] }

/-- The patient-load effect (App.tsx lines 62-89): on a change of
`activePid`, reset the canvas and the `existingNodeIds` set, then when the
bundle arrives run `fhirToGraph(bundle)` against the fresh empty set and
record every produced node id as materialized. -/
def activatePatient (pid : String) (bundle : FhirBundle) (_st : AppState) :
    AppState :=
  let g := fhirToGraph bundle []
  { activePid := pid, materialized := g.1.map Node.id
    nodes := g.1, edges := g.2 }

/-- Externally visible events of the reconciler. `deliver closurePid msg`
is the resolution of a polling fetch whose closure captured `closurePid`;
`clearInterval` in the effect cleanup (App.tsx line 135) stops future polls
but does not cancel an in-flight request, so a `deliver` event can occur
after a later `switch`, and it operates on the shared `existingNodeIds`
ref and the current nodes/edges state while using its stale captured pid. -/
inductive AppEvent where
  | switch (pid : String) (bundle : FhirBundle)
  | deliver (closurePid : String) (msg : Msg)

/-- One event step of the reconciler. -/
def step (st : AppState) (e : AppEvent) : AppState :=
  match e with
  | .switch pid b => activatePatient pid b st
  | .deliver closurePid m => handleObservation closurePid st m

/-- A run of the reconciler over a sequence of events. -/
def runTrace (st : AppState) (es : List AppEvent) : AppState :=
  es.foldl step st

/-- Initial state: `DEFAULT_PID` with an empty canvas (App.tsx
lines 23-34). -/
def initialState : AppState :=
  { activePid := "synth-001", materialized := [], nodes := [], edges := [] }

/-- Severity colors of the ranking view (PatientDots.tsx): red is critical,
orange at-risk, green stable. -/
inductive SeverityColor where
  | red
  | orange
  | green
deriving DecidableEq

/-- A ranked patient (PatientDots.tsx `PatientSeverity`); name, initials,
gender and reasons are display-only. -/
structure PatientSeverity where
  id : String
  severity : SeverityColor
deriving DecidableEq

/-- `const order = { red: 0, orange: 1, green: 2 }` (PatientDots.tsx
line 43). -/
def severityOrder : SeverityColor → ℕ
  | .red => 0
  | .orange => 1
  | .green => 2

/-- The ranking comparator `order[a.severity] - order[b.severity]` as a
non-strict relation for the stable sort. -/
def patientLE (a b : PatientSeverity) : Prop :=
  severityOrder a.severity ≤ severityOrder b.severity

instance : DecidableRel patientLE := fun a b =>
  inferInstanceAs (Decidable (severityOrder a.severity ≤ severityOrder b.severity))

instance : IsTotal PatientSeverity patientLE :=
  ⟨fun a b => le_total (severityOrder a.severity) (severityOrder b.severity)⟩

instance : IsTrans PatientSeverity patientLE :=
  ⟨fun _ _ _ h1 h2 => le_trans h1 h2⟩

/-- `[...patients].sort((a, b) => order[a.severity] - order[b.severity])`
(PatientDots.tsx lines 42-45): stable sort, red before orange before
green. -/
def sortPatients (ps : List PatientSeverity) : List PatientSeverity :=
  List.insertionSort patientLE ps

/-! ### The specified observation-selection policy

The spec's observation selection clause says ties on timestamp are broken
by the underlying resource identifier ascending. The following definitions
follow those words (not the source, which keeps ties in input order) so the
two policies can be compared. -/

/-- Lexicographic comparison on character lists, for "identifier
ascending". -/
def strLeB : List Char → List Char → Bool
  | [], _ => true
  | _ :: _, [] => false
  | a :: as, b :: bs =>
    if a < b then true else if b < a then false else strLeB as bs

/-- The spec's claimed selection order: timestamp descending, ties broken
by resource identifier ascending. -/
def specObsLE (a b : FhirObservation) : Prop :=
  getTime b < getTime a ∨
    (getTime a = getTime b ∧ strLeB (jsStr a.id).data (jsStr b.id).data = true)

instance : DecidableRel specObsLE := fun a b =>
  inferInstanceAs (Decidable (getTime b < getTime a ∨
    (getTime a = getTime b ∧ strLeB (jsStr a.id).data (jsStr b.id).data = true)))

/-- The spec's claimed selection: sort by `specObsLE`, take the first 12. -/
def specDisplayedObs (b : FhirBundle) : List FhirObservation :=
  (List.insertionSort specObsLE b.observations).take 12

/-! ### Concrete inputs used by the concrete theorems below -/

/-- An empty `code` element. -/
def noCode : CodeableText := { text := none, coding := none }

/-- A minimal observation with a given id and timestamp and no value. -/
def oMk (i : String) (t : Option Int) : FhirObservation :=
  { id := some i, code := noCode, effectiveDateTime := t
    valueQuantity := none, _step := none }

/-- A creatinine observation (LOINC 2160-0) carrying the value `v`. -/
def creatObs (v : ℚ) : FhirObservation :=
  { id := some "c1"
    code := { text := none, coding := some [{ code := some "2160-0", display := none }] }
    effectiveDateTime := none
    valueQuantity := some { value := v, unit := "mg/dL" }
    _step := none }

/-- An observation with a lab code absent from the threshold table. -/
def unknownCodeObs : FhirObservation :=
  { id := some "u1"
    code := { text := none, coding := some [{ code := some "9999-9", display := none }] }
    effectiveDateTime := none
    valueQuantity := some { value := 100, unit := "x" }
    _step := none }

/-- A creatinine observation with its numeric value missing. -/
def noValueObs : FhirObservation :=
  { id := some "v1"
    code := { text := none, coding := some [{ code := some "2160-0", display := none }] }
    effectiveDateTime := none
    valueQuantity := none
    _step := none }

/-- A bundle holding only a patient. -/
def miniBundle : FhirBundle :=
  { patient := { id := some "p" }, conditions := [], observations := []
    medications := [], encounters := [] }

/-- A bundle with 13 observations all carrying the same (missing)
timestamp: `z` first in input order, then `a` through `l`. -/
def tieBundle : FhirBundle :=
  { patient := { id := some "p" }, conditions := []
    observations := oMk "z" none ::
      (["a", "b", "c", "d", "e", "f", "g", "h", "i", "j", "k", "l"].map
        fun s => oMk s none)
    medications := [], encounters := [] }

/-- A bundle whose 13 observations are one timestamp-less observation and
twelve observations dated before 1970 (negative epoch milliseconds). -/
def preEpochBundle : FhirBundle :=
  { patient := { id := some "p" }, conditions := []
    observations := oMk "n" none ::
      ((List.range 12).map fun i => oMk (toString i) (some (-(i : Int) - 1)))
    medications := [], encounters := [] }

/-- A bundle with 13 observations carrying pairwise distinct timestamps
0 through 12. -/
def distinctTimesBundle : FhirBundle :=
  { patient := { id := some "p" }, conditions := []
    observations := (List.range 13).map fun i => oMk (toString i) (some (i : Int))
    medications := [], encounters := [] }

/-- A bundle with one timestamp-less observation and twelve observations
with positive timestamps. -/
def positiveTimesBundle : FhirBundle :=
  { patient := { id := some "p" }, conditions := []
    observations := oMk "n" none ::
      ((List.range 12).map fun i => oMk (toString i) (some ((i : Int) + 1)))
    medications := [], encounters := [] }

/-- A structurally malformed bundle: the patient and the single condition
are missing their identifier fields. -/
def malformedBundle : FhirBundle :=
  { patient := { id := none }, conditions := [{ id := none }]
    observations := [], medications := [], encounters := [] }

/-- A bundle with six encounters. -/
def encBundle : FhirBundle :=
  { patient := { id := some "p" }, conditions := [], observations := []
    medications := []
    encounters := [{ id := some "e1" }, { id := some "e2" }, { id := some "e3" },
      { id := some "e4" }, { id := some "e5" }, { id := some "e6" }] }

/-- A bundle with one resource of each non-observation satellite kind. -/
def oneOfEachBundle : FhirBundle :=
  { patient := { id := some "p" }
    conditions := [{ id := some "c1" }]
    observations := []
    medications := [{ id := some "m1" }]
    encounters := [{ id := some "e1" }] }

/-- The observation delivered both in patient P1's bundle and (stale) by
the polling loop. -/
def obsX : FhirObservation :=
  { id := some "x1", code := noCode, effectiveDateTime := some 1
    valueQuantity := none, _step := some 0 }

/-- Patient P1's bundle, containing `obsX`. -/
def bundleP1 : FhirBundle :=
  { patient := { id := some "P1" }, conditions := [], observations := [obsX]
    medications := [], encounters := [] }

/-- Patient P2's bundle, with no satellite resources. -/
def bundleP2 : FhirBundle :=
  { patient := { id := some "P2" }, conditions := [], observations := []
    medications := [], encounters := [] }

/-- A `new_observation` polling payload carrying `obsX`. -/
def staleMsg : Msg := { type := "new_observation", data := obsX }

/-! ### Helper lemmas about the guarded mapping sections -/

/-- A guarded section emits nothing when every considered identifier is
already materialized. -/
theorem guardedNodes_eq_nil {α : Type} (nid : α → String) (mk : ℕ → α → Node)
    (S : List String) {l : List α} (h : ∀ a ∈ l, nid a ∈ S) (i : ℕ) :
    guardedNodes nid mk S i l = [] := by
  induction l generalizing i with
  | nil => rfl
  | cons a as ih =>
    simp only [guardedNodes, if_pos (h a (List.mem_cons_self a as)),
      List.nil_append]
    exact ih (fun a ha => h a (List.mem_cons_of_mem _ ha)) (i + 1)

/-- Every considered identifier is either already materialized or among the
emitted node identifiers. -/
theorem mem_S_or_mem_map_id {α : Type} (nid : α → String) (mk : ℕ → α → Node)
    (S : List String) (hmk : ∀ i a, (mk i a).id = nid a)
    {l : List α} {a : α} (ha : a ∈ l) (i : ℕ) :
    nid a ∈ S ∨ nid a ∈ (guardedNodes nid mk S i l).map Node.id := by
  induction l generalizing i with
  | nil => cases ha
  | cons b bs ih =>
    rcases List.mem_cons.mp ha with rfl | hmem
    · by_cases hS : nid a ∈ S
      · exact Or.inl hS
      · right
        simp [guardedNodes, if_neg hS, hmk]
    · rcases ih hmem (i + 1) with hS | hid
      · exact Or.inl hS
      · right
        simp only [guardedNodes, List.map_append, List.mem_append]
        exact Or.inr hid

/-- No emitted node carries an identifier that was already materialized. -/
theorem guardedNodes_id_not_mem {α : Type} (nid : α → String)
    (mk : ℕ → α → Node) (S : List String)
    (hmk : ∀ i a, (mk i a).id = nid a) {l : List α} (i : ℕ) :
    ∀ n ∈ guardedNodes nid mk S i l, n.id ∉ S := by
  induction l generalizing i with
  | nil => intro n hn; cases hn
  | cons b bs ih =>
    intro n hn
    simp only [guardedNodes, List.mem_append] at hn
    rcases hn with hn | hn
    · by_cases hS : nid b ∈ S
      · rw [if_pos hS] at hn; cases hn
      · rw [if_neg hS] at hn
        rcases List.mem_singleton.mp hn with rfl
        rw [hmk]
        exact hS
    · exact ih (i + 1) n hn

/-- A considered resource that is not yet materialized is emitted. -/
theorem id_mem_of_not_mem_S {α : Type} (nid : α → String) (mk : ℕ → α → Node)
    (S : List String) (hmk : ∀ i a, (mk i a).id = nid a)
    {l : List α} {a : α} (ha : a ∈ l) (hS : nid a ∉ S) (i : ℕ) :
    nid a ∈ (guardedNodes nid mk S i l).map Node.id :=
  (mem_S_or_mem_map_id nid mk S hmk ha i).resolve_left hS

/-- With nothing materialized, a guarded section emits one node per
considered resource. -/
theorem guardedNodes_length_nil {α : Type} (nid : α → String)
    (mk : ℕ → α → Node) (l : List α) (i : ℕ) :
    (guardedNodes nid mk [] i l).length = l.length := by
  induction l generalizing i with
  | nil => rfl
  | cons b bs ih => simp [guardedNodes, ih]

/-- With nothing materialized, the emitted identifiers are the considered
identifiers in order. -/
theorem guardedNodes_map_id_nil {α : Type} (nid : α → String)
    (mk : ℕ → α → Node) (hmk : ∀ i a, (mk i a).id = nid a)
    (l : List α) (i : ℕ) :
    (guardedNodes nid mk [] i l).map Node.id = l.map nid := by
  induction l generalizing i with
  | nil => rfl
  | cons b bs ih => simp [guardedNodes, ih, hmk]

/-- A guarded edge section emits nothing when every considered identifier
is already materialized. -/
theorem guardedEdges_eq_nil {α : Type} (nid : α → String) (mkE : α → Edge)
    (S : List String) {l : List α} (h : ∀ a ∈ l, nid a ∈ S) :
    guardedEdges nid mkE S l = [] := by
  rw [guardedEdges, List.filterMap_eq_nil_iff]
  intro a ha
  rw [if_pos (h a ha)]

/-! ### Helper lemmas about the stable sorts -/

/-- Inserting into a list commutes with filtering by a predicate whose
satisfying elements are mutually relation-tied. -/
theorem filter_orderedInsert {α : Type} (r : α → α → Prop) [DecidableRel r]
    (p : α → Bool) (hp : ∀ a b, p a = true → p b = true → r a b)
    (a : α) (l : List α) :
    (List.orderedInsert r a l).filter p =
      if p a then a :: l.filter p else l.filter p := by
  induction l with
  | nil => cases hpa : p a <;> simp [List.orderedInsert, List.filter_cons, hpa]
  | cons b bs ih =>
    by_cases hr : r a b
    · cases hpa : p a <;>
        simp [List.orderedInsert, if_pos hr, List.filter_cons, hpa]
    · cases hpa : p a <;> cases hpb : p b
      · simp [List.orderedInsert, if_neg hr, List.filter_cons, hpa, hpb, ih]
      · simp [List.orderedInsert, if_neg hr, List.filter_cons, hpa, hpb, ih]
      · simp [List.orderedInsert, if_neg hr, List.filter_cons, hpa, hpb, ih]
      · exact absurd (hp a b hpa hpb) hr

/-- Stability of the insertion sort: the subsequence of elements satisfying
a predicate whose satisfying elements are mutually relation-tied is
untouched by sorting. -/
theorem filter_insertionSort {α : Type} (r : α → α → Prop) [DecidableRel r]
    (p : α → Bool) (hp : ∀ a b, p a = true → p b = true → r a b)
    (l : List α) :
    (List.insertionSort r l).filter p = l.filter p := by
  induction l with
  | nil => rfl
  | cons a as ih =>
    rw [List.insertionSort, filter_orderedInsert r p hp, ih, List.filter_cons]

/-- An observation strictly older than at least `n` list elements cannot be
among the first `n` after sorting descending by timestamp. -/
theorem not_mem_take_sortObs (l : List FhirObservation) (o : FhirObservation)
    (n : ℕ) (hcount : n ≤ l.countP (fun x => decide (getTime o < getTime x))) :
    o ∉ (sortObs l).take n := by
  intro hmem
  set p : FhirObservation → Bool := fun x => decide (getTime o < getTime x)
    with hp
  have hperm : List.Perm (sortObs l) l := List.perm_insertionSort _ _
  have hsort : List.Sorted obsGE (sortObs l) := List.sorted_insertionSort _ _
  have hcnt : (sortObs l).countP p = l.countP p := hperm.countP_eq p
  obtain ⟨t₁, t₂, ht⟩ := List.append_of_mem hmem
  have hlen : t₁.length + t₂.length + 1 ≤ n := by
    have h1 : (t₁ ++ o :: t₂).length ≤ n := by
      rw [← ht, List.length_take]
      exact min_le_left _ _
    simpa [List.length_append] using h1
  have hpo : p o = false := by simp [hp]
  have h1 : ((sortObs l).take n).countP p ≤ n - 1 := by
    rw [ht, List.countP_append, List.countP_cons, hpo]
    simp only [Bool.false_eq_true, if_false, add_zero]
    have := List.countP_le_length (p := p) (l := t₁)
    have := List.countP_le_length (p := p) (l := t₂)
    omega
  have hdrop : ∀ x ∈ (sortObs l).drop n, p x = false := by
    intro x hx
    have hsp : List.Pairwise obsGE ((sortObs l).take n ++ (sortObs l).drop n) := by
      rw [List.take_append_drop]
      exact hsort
    have hrel : obsGE o x := (List.pairwise_append.mp hsp).2.2 o hmem x hx
    simp only [hp, decide_eq_false_iff_not]
    exact not_lt.mpr hrel
  have h2 : ((sortObs l).drop n).countP p = 0 :=
    List.countP_eq_zero.mpr fun x hx => by simp [hdrop x hx]
  have h3 : (sortObs l).countP p =
      ((sortObs l).take n).countP p + ((sortObs l).drop n).countP p := by
    conv_lhs => rw [← List.take_append_drop n (sortObs l)]
    rw [List.countP_append]
  omega

/-- Evaluation of the classifier when a value is present and the code has a
rule. -/
theorem isAbnormal_eval (o : FhirObservation) (q : Quantity) (c : ℚ)
    (hv : o.valueQuantity = some q) (hne : loincCode o ≠ "")
    (hc : THRESHOLDS (loincCode o) = some c) :
    isAbnormal o =
      if loincCode o = "33914-3" then decide (q.value < c)
      else decide (c < q.value) := by
  unfold isAbnormal
  rw [hv]
  simp [hne, hc]

/-! ### Claim theorems -/

/-- C1, counterexample: the claim says `mapBundle(b, S)` called twice with
the same bundle and the same set produces an empty delta the second time,
for all bundles and sets. `fhirToGraph` is a pure function, so the second
call with the same arguments is the same expression and returns the same
delta; at the bundle holding only a patient and the empty set, that delta
holds one node, not zero. -/
theorem c1_second_call_same_set_nonempty :
    fhirToGraph miniBundle [] = fhirToGraph miniBundle [] ∧
      (fhirToGraph miniBundle []).1 ≠ [] :=
  ⟨rfl, by decide⟩

/-- C1, amended: a resource whose derived identifier is already in the
`alreadyMaterialized` set is skipped (no emitted node carries an identifier
in the set), and a second call whose set additionally holds every node
identifier of the first call's delta produces an empty delta. -/
theorem c1_mapper_idempotent_merge (b : FhirBundle) (S : List String) :
    fhirToGraph b (S ++ (fhirToGraph b S).1.map Node.id) = ([], []) ∧
      ∀ n ∈ (fhirToGraph b S).1, n.id ∉ S := by
  set ids := (fhirToGraph b S).1.map Node.id with hids
  have hsplit : ids =
      (patientNodes b S).map Node.id ++ (condNodes b S).map Node.id ++
        (obsNodes b S).map Node.id ++ (medNodes b S).map Node.id ++
        (encNodes b S).map Node.id := by
    simp [hids, fhirToGraph]
  have hpat : patientNodeId b ∈ S ++ ids := by
    by_cases hS : patientNodeId b ∈ S
    · exact List.mem_append_left _ hS
    · refine List.mem_append_right _ ?_
      rw [hsplit]
      have hp : patientNodeId b ∈ (patientNodes b S).map Node.id := by
        rw [patientNodes, if_neg hS]
        exact List.mem_singleton.mpr rfl
      exact List.mem_append_left _ (List.mem_append_left _
        (List.mem_append_left _ (List.mem_append_left _ hp)))
  have hcond : ∀ c ∈ b.conditions, condNodeId c ∈ S ++ ids := by
    intro c hc
    rcases mem_S_or_mem_map_id condNodeId condMk S (fun _ _ => rfl) hc 0
      with h | h
    · exact List.mem_append_left _ h
    · refine List.mem_append_right _ ?_
      rw [hsplit]
      exact List.mem_append_left _ (List.mem_append_left _
        (List.mem_append_left _ (List.mem_append_right _ h)))
  have hobs : ∀ o ∈ displayedObs b, obsNodeId o ∈ S ++ ids := by
    intro o ho
    rcases mem_S_or_mem_map_id obsNodeId obsMk S (fun _ _ => rfl) ho 0
      with h | h
    · exact List.mem_append_left _ h
    · refine List.mem_append_right _ ?_
      rw [hsplit]
      exact List.mem_append_left _ (List.mem_append_left _
        (List.mem_append_right _ h))
  have hmed : ∀ m ∈ b.medications, medNodeId m ∈ S ++ ids := by
    intro m hm
    rcases mem_S_or_mem_map_id medNodeId medMk S (fun _ _ => rfl) hm 0
      with h | h
    · exact List.mem_append_left _ h
    · refine List.mem_append_right _ ?_
      rw [hsplit]
      exact List.mem_append_left _ (List.mem_append_right _ h)
  have henc : ∀ e ∈ b.encounters.take 5, encNodeId e ∈ S ++ ids := by
    intro e he
    rcases mem_S_or_mem_map_id encNodeId encMk S (fun _ _ => rfl) he 0
      with h | h
    · exact List.mem_append_left _ h
    · refine List.mem_append_right _ ?_
      rw [hsplit]
      exact List.mem_append_right _ h
  constructor
  · have h1 : patientNodes b (S ++ ids) = [] := by
      rw [patientNodes, if_pos hpat]
    have h2 : condNodes b (S ++ ids) = [] :=
      guardedNodes_eq_nil condNodeId condMk _ hcond 0
    have h3 : obsNodes b (S ++ ids) = [] :=
      guardedNodes_eq_nil obsNodeId obsMk _ hobs 0
    have h4 : medNodes b (S ++ ids) = [] :=
      guardedNodes_eq_nil medNodeId medMk _ hmed 0
    have h5 : encNodes b (S ++ ids) = [] :=
      guardedNodes_eq_nil encNodeId encMk _ henc 0
    have e1 : condEdges b (S ++ ids) = [] :=
      guardedEdges_eq_nil condNodeId (condEdgeMk b) _ hcond
    have e2 : obsEdges b (S ++ ids) = [] :=
      guardedEdges_eq_nil obsNodeId (obsEdgeMk b) _ hobs
    have e3 : medEdges b (S ++ ids) = [] :=
      guardedEdges_eq_nil medNodeId (medEdgeMk b) _ hmed
    have e4 : encEdges b (S ++ ids) = [] :=
      guardedEdges_eq_nil encNodeId (encEdgeMk b) _ henc
    rw [fhirToGraph, h1, h2, h3, h4, h5, e1, e2, e3, e4]
    rfl
  · intro n hn
    simp only [fhirToGraph, List.mem_append] at hn
    rcases hn with ((((hn | hn) | hn) | hn) | hn)
    · by_cases hS : patientNodeId b ∈ S
      · rw [patientNodes, if_pos hS] at hn; cases hn
      · rw [patientNodes, if_neg hS] at hn
        rcases List.mem_singleton.mp hn with rfl
        exact hS
    · exact guardedNodes_id_not_mem condNodeId condMk S (fun _ _ => rfl) 0 n hn
    · exact guardedNodes_id_not_mem obsNodeId obsMk S (fun _ _ => rfl) 0 n hn
    · exact guardedNodes_id_not_mem medNodeId medMk S (fun _ _ => rfl) 0 n hn
    · exact guardedNodes_id_not_mem encNodeId encMk S (fun _ _ => rfl) 0 n hn

/-- C1, witness: the amended idempotent-merge theorem at the one-patient
bundle and the set `["q"]`: the merged second call returns an empty delta,
and the emitted patient node's identifier is not in the set. -/
theorem c1_mapper_idempotent_merge_witness :
    fhirToGraph miniBundle
        (["q"] ++ (fhirToGraph miniBundle ["q"]).1.map Node.id) = ([], []) ∧
      ("patient-p" : String) ∉ (["q"] : List String) :=
  ⟨(c1_mapper_idempotent_merge miniBundle ["q"]).1,
    (c1_mapper_idempotent_merge miniBundle ["q"]).2
      { id := "patient-p", x := 600, y := 400 } (by decide)⟩

/-- C2: for an observation whose lab code has a threshold rule and whose
numeric value is present, the classifier alerts strictly above the cutoff
for every code except eGFR (33914-3), which alerts strictly below; a value
exactly at the cutoff is never abnormal. -/
theorem c2_threshold_strict_directions (o : FhirObservation) (c : ℚ)
    (q : Quantity) (hc : THRESHOLDS (loincCode o) = some c)
    (hv : o.valueQuantity = some q) :
    (loincCode o ≠ "33914-3" → (isAbnormal o = true ↔ c < q.value)) ∧
      (loincCode o = "33914-3" → (isAbnormal o = true ↔ q.value < c)) ∧
      (q.value = c → isAbnormal o = false) := by
  have hne : loincCode o ≠ "" := by
    intro h
    rw [h] at hc
    simp [THRESHOLDS] at hc
  have he := isAbnormal_eval o q c hv hne hc
  by_cases hegfr : loincCode o = "33914-3"
  · rw [he, if_pos hegfr]
    refine ⟨fun h => absurd hegfr h, fun _ => by simp, fun hqc => ?_⟩
    simp [hqc]
  · rw [he, if_neg hegfr]
    refine ⟨fun _ => by simp, fun h => absurd h hegfr, fun hqc => ?_⟩
    simp [hqc]

/-- C2, witness: creatinine (code 2160-0, cutoff 1.5): the value 1.6 is
abnormal and the boundary value 1.5 is not. -/
theorem c2_threshold_strict_directions_witness :
    THRESHOLDS (loincCode (creatObs (8/5))) = some (3/2) ∧
      isAbnormal (creatObs (8/5)) = true ∧
      isAbnormal (creatObs (3/2)) = false :=
  ⟨rfl,
    ((c2_threshold_strict_directions (creatObs (8/5)) (3/2)
        { value := 8/5, unit := "mg/dL" } rfl rfl).1
      (by decide)).mpr (by norm_num),
    (c2_threshold_strict_directions (creatObs (3/2)) (3/2)
        { value := 3/2, unit := "mg/dL" } rfl rfl).2.2 rfl⟩

/-- C3: the classifier fails closed: a lab code with no threshold rule, or
a missing numeric value, yields `isAbnormal = false`, whatever the other
argument is. -/
theorem c3_classifier_fails_closed (o : FhirObservation) :
    (THRESHOLDS (loincCode o) = none → isAbnormal o = false) ∧
      (o.valueQuantity = none → isAbnormal o = false) := by
  constructor
  · intro hc
    unfold isAbnormal
    cases hv : o.valueQuantity with
    | none => rfl
    | some q =>
      by_cases hne : loincCode o = ""
      · simp [hne]
      · simp [hne, hc]
  · intro hv
    unfold isAbnormal
    rw [hv]

/-- C3, witness: the fail-closed theorem at an observation with an unknown
lab code carrying the value 100, and at a creatinine observation with its
value missing. -/
theorem c3_classifier_fails_closed_witness :
    THRESHOLDS (loincCode unknownCodeObs) = none ∧
      isAbnormal unknownCodeObs = false ∧
      isAbnormal noValueObs = false :=
  ⟨rfl, (c3_classifier_fails_closed unknownCodeObs).1 rfl,
    (c3_classifier_fails_closed noValueObs).2 rfl⟩

/-- C4, counterexample: the claim says ties on timestamp are broken by the
resource identifier ascending. On a bundle of 13 observations that all
share one timestamp, with identifier `z` first in input order followed by
`a` through `l`, the mapper keeps `z` (the stable sort keeps input order
and drops the 13th input, `l`), while the claimed identifier-ascending
policy would keep `a` through `l` and drop `z`. -/
theorem c4_tie_break_counterexample :
    "obs-z" ∈ (obsNodes tieBundle []).map Node.id ∧
      "obs-z" ∉ (specDisplayedObs tieBundle).map obsNodeId ∧
      (obsNodes tieBundle []).map Node.id ≠
        (specDisplayedObs tieBundle).map obsNodeId := by decide

/-- C4, amended: the observations are sorted by timestamp descending with
ties keeping their input order (stable sort), and the first 12 are taken:
the subsequence of observations sharing any fixed timestamp is unchanged by
the sort, and a bundle of 13 observations with pairwise distinct timestamps
materializes exactly 12 observation nodes, dropping exactly the oldest. -/
theorem c4_most_recent_twelve_stable :
    (∀ (l : List FhirObservation) (t : Int),
        (sortObs l).filter (fun o => decide (getTime o = t)) =
          l.filter (fun o => decide (getTime o = t))) ∧
      ∀ (b : FhirBundle) (omin : FhirObservation),
        b.observations.length = 13 →
        List.Pairwise (fun o o' => getTime o ≠ getTime o') b.observations →
        omin ∈ b.observations →
        (∀ o' ∈ b.observations, o' ≠ omin → getTime omin < getTime o') →
        (obsNodes b []).map Node.id = (displayedObs b).map obsNodeId ∧
          (displayedObs b).length = 12 ∧
          omin ∉ displayedObs b ∧
          ∀ o' ∈ b.observations, o' ≠ omin → o' ∈ displayedObs b := by
  constructor
  · intro l t
    apply filter_insertionSort
    intro a b ha hb
    simp only [decide_eq_true_iff] at ha hb
    unfold obsGE
    rw [ha, hb]
  · intro b omin h13 hdist hmem hmin
    have hperm : List.Perm (sortObs b.observations) b.observations :=
      List.perm_insertionSort _ _
    have hslen : (sortObs b.observations).length = 13 := by
      rw [hperm.length_eq, h13]
    have hlen : (displayedObs b).length = 12 := by
      rw [displayedObs, List.length_take, hslen]
      omega
    have hnodup : b.observations.Nodup :=
      hdist.imp fun hne hab => hne (congrArg getTime hab)
    set p : FhirObservation → Bool :=
      fun x => decide (getTime omin < getTime x) with hp
    have hcount : b.observations.countP p = 12 := by
      have hpq : ∀ x ∈ b.observations,
          ((fun a => decide (¬p a = true)) x = true ↔ (x == omin) = true) := by
        intro x hx
        by_cases hxo : x = omin
        · subst hxo
          simp [hp]
        · have := hmin x hx hxo
          simp [hp, this, hxo]
      have hcnt1 : b.observations.countP (fun a => decide (¬p a = true)) = 1 := by
        calc b.observations.countP (fun a => decide (¬p a = true))
            = b.observations.countP (fun x => x == omin) :=
              List.countP_congr hpq
          _ = b.observations.count omin := rfl
          _ = 1 := List.count_eq_one_of_mem hnodup hmem
      have := List.length_eq_countP_add_countP (l := b.observations) (p := p)
      omega
    have hnotmem : omin ∉ displayedObs b := by
      rw [displayedObs]
      exact not_mem_take_sortObs _ _ _ (by rw [hcount])
    refine ⟨?_, hlen, hnotmem, ?_⟩
    · exact guardedNodes_map_id_nil obsNodeId obsMk (fun _ _ => rfl)
        (displayedObs b) 0
    · intro o' ho' hne
      have hos : o' ∈ sortObs b.observations := hperm.mem_iff.mpr ho'
      have homs : omin ∈ sortObs b.observations := hperm.mem_iff.mpr hmem
      have hdlen : ((sortObs b.observations).drop 12).length = 1 := by
        rw [List.length_drop, hslen]
      obtain ⟨x, hx⟩ := List.length_eq_one.mp hdlen
      have hsplit := List.take_append_drop 12 (sortObs b.observations)
      have homd : omin ∈ (sortObs b.observations).drop 12 := by
        rcases List.mem_append.mp (by rw [hsplit]; exact homs) with h | h
        · exact absurd h hnotmem
        · exact h
      have homx : omin = x := by
        rw [hx] at homd
        exact List.mem_singleton.mp homd
      rcases List.mem_append.mp (by rw [hsplit]; exact hos) with h | h
      · exact h
      · rw [hx] at h
        exact absurd (List.mem_singleton.mp h) (homx ▸ hne)

/-- C4, witness: the amended theorem at a bundle with 13 observations
timestamped 0 through 12: twelve are displayed, the oldest (timestamp 0) is
dropped, and the observation timestamped 5 is kept. -/
theorem c4_most_recent_twelve_stable_witness :
    (displayedObs distinctTimesBundle).length = 12 ∧
      oMk "0" (some 0) ∉ displayedObs distinctTimesBundle ∧
      oMk "5" (some 5) ∈ displayedObs distinctTimesBundle :=
  ⟨(c4_most_recent_twelve_stable.2 distinctTimesBundle (oMk "0" (some 0))
      (by decide) (by decide) (by decide) (by decide)).2.1,
    (c4_most_recent_twelve_stable.2 distinctTimesBundle (oMk "0" (some 0))
      (by decide) (by decide) (by decide) (by decide)).2.2.1,
    (c4_most_recent_twelve_stable.2 distinctTimesBundle (oMk "0" (some 0))
      (by decide) (by decide) (by decide) (by decide)).2.2.2
      (oMk "5" (some 5)) (by decide) (by decide)⟩

/-- C5: delivering the same observation identifier twice to the handler:
a first delivery whose derived node identifier is not yet materialized
appends exactly one node, one live edge and that identifier; a second
delivery carrying the same identifier leaves the state unchanged. -/
theorem c5_duplicate_delivery_tolerance (pid : String) (st : AppState)
    (m1 m2 : Msg) (h1 : m1.type = "new_observation")
    (h2 : m2.type = "new_observation") (hid : m2.data.id = m1.data.id) :
    ((simObsToNode m1.data).id ∉ st.materialized →
      (handleObservation pid st m1).nodes = st.nodes ++ [simObsToNode m1.data] ∧
        (handleObservation pid st m1).edges = st.edges ++
          [{ id := "e-patient-" ++ (simObsToNode m1.data).id
             source := "patient-" ++ pid, target := (simObsToNode m1.data).id
             animated := true }] ∧
        (handleObservation pid st m1).materialized =
          st.materialized ++ [(simObsToNode m1.data).id]) ∧
      handleObservation pid (handleObservation pid st m1) m2 =
        handleObservation pid st m1 := by
  have hnode : (simObsToNode m2.data).id = (simObsToNode m1.data).id := by
    simp [simObsToNode, hid]
  constructor
  · intro hmem
    refine ⟨?_, ?_, ?_⟩ <;> simp [handleObservation, h1, hmem]
  · by_cases hmem : (simObsToNode m1.data).id ∈ st.materialized
    · have hfst : handleObservation pid st m1 = st := by
        simp [handleObservation, h1, hmem]
      rw [hfst]
      simp [handleObservation, h2, hnode, hmem]
    · have hfst : (handleObservation pid st m1).materialized =
          st.materialized ++ [(simObsToNode m1.data).id] := by
        simp [handleObservation, h1, hmem]
      have hmem2 : (simObsToNode m2.data).id ∈
          (handleObservation pid st m1).materialized := by
        rw [hnode, hfst]
        exact List.mem_append_right _ (List.mem_singleton.mpr rfl)
      generalize handleObservation pid st m1 = s2 at hmem2 ⊢
      simp [handleObservation, h2, hmem2]

/-- C5, witness: the duplicate-tolerance theorem at the initial state and
the `new_observation` payload carrying `obsX`: the first delivery appends
exactly one node and records the identifier, and redelivering the same
payload is a no-op. -/
theorem c5_duplicate_delivery_tolerance_witness :
    (handleObservation "synth-001" initialState staleMsg).nodes =
        initialState.nodes ++ [simObsToNode obsX] ∧
      (handleObservation "synth-001" initialState staleMsg).materialized =
        initialState.materialized ++ [(simObsToNode obsX).id] ∧
      handleObservation "synth-001"
          (handleObservation "synth-001" initialState staleMsg) staleMsg =
        handleObservation "synth-001" initialState staleMsg :=
  ⟨((c5_duplicate_delivery_tolerance "synth-001" initialState staleMsg
      staleMsg rfl rfl rfl).1 (by decide)).1,
    ((c5_duplicate_delivery_tolerance "synth-001" initialState staleMsg
      staleMsg rfl rfl rfl).1 (by decide)).2.2,
    (c5_duplicate_delivery_tolerance "synth-001" initialState staleMsg
      staleMsg rfl rfl rfl).2⟩

/-- C6: the claim requires that after activation of a new patient begins,
a delivery carrying an identifier that only existed under the previous
patient's materialized set is rejected. In the code the switch clears the
shared `existingNodeIds` set and `clearInterval` does not cancel an
in-flight poll, so a stale response for P1 arriving after the switch to P2
passes the membership check (the set was cleared) and is materialized onto
P2's canvas — with its live edge still sourced at the old closure's
`patient-P1`, a node absent from the canvas. This trace evaluates the code
at that failing input. -/
theorem c6_stale_delivery_materialized :
    "obs-x1" ∈ (runTrace initialState
        [.switch "P1" bundleP1]).materialized ∧
      "obs-x1" ∉ (runTrace initialState
        [.switch "P1" bundleP1, .switch "P2" bundleP2]).materialized ∧
      "obs-x1" ∈ (runTrace initialState
        [.switch "P1" bundleP1, .switch "P2" bundleP2,
          .deliver "P1" staleMsg]).nodes.map Node.id ∧
      (runTrace initialState
        [.switch "P1" bundleP1, .switch "P2" bundleP2,
          .deliver "P1" staleMsg]).activePid = "P2" ∧
      ({ id := "e-patient-obs-x1", source := "patient-P1", target := "obs-x1",
          animated := true } : Edge) ∈ (runTrace initialState
        [.switch "P1" bundleP1, .switch "P2" bundleP2,
          .deliver "P1" staleMsg]).edges ∧
      "patient-P1" ∉ (runTrace initialState
        [.switch "P1" bundleP1, .switch "P2" bundleP2,
          .deliver "P1" staleMsg]).nodes.map Node.id := by decide

/-- C7, counterexample: the claim says no Encounter present in the bundle
is omitted; on a bundle with six encounters the sixth is omitted, because
the mapper only walks `encounters.slice(0, 5)`. -/
theorem c7_sixth_encounter_omitted :
    ({ id := some "e6" } : FhirEncounter) ∈ encBundle.encounters ∧
      "enc-e6" ∉ (fhirToGraph encBundle []).1.map Node.id := by decide

/-- C7, amended: the mapper materializes the patient, every condition,
every medication, and each of the first five encounters whose derived
identifier is not already materialized; conditions and medications are
never omitted, encounters are capped at five by input order (and
observations at twelve). -/
theorem c7_noncapped_resources_materialized (b : FhirBundle)
    (S : List String) :
    (patientNodeId b ∉ S →
        patientNodeId b ∈ (fhirToGraph b S).1.map Node.id) ∧
      (∀ c ∈ b.conditions, condNodeId c ∉ S →
        condNodeId c ∈ (fhirToGraph b S).1.map Node.id) ∧
      (∀ m ∈ b.medications, medNodeId m ∉ S →
        medNodeId m ∈ (fhirToGraph b S).1.map Node.id) ∧
      (∀ e ∈ b.encounters.take 5, encNodeId e ∉ S →
        encNodeId e ∈ (fhirToGraph b S).1.map Node.id) := by
  have hsplit : (fhirToGraph b S).1.map Node.id =
      (patientNodes b S).map Node.id ++ (condNodes b S).map Node.id ++
        (obsNodes b S).map Node.id ++ (medNodes b S).map Node.id ++
        (encNodes b S).map Node.id := by
    simp [fhirToGraph]
  refine ⟨?_, ?_, ?_, ?_⟩
  · intro hS
    rw [hsplit]
    have hp : patientNodeId b ∈ (patientNodes b S).map Node.id := by
      rw [patientNodes, if_neg hS]
      exact List.mem_singleton.mpr rfl
    exact List.mem_append_left _ (List.mem_append_left _
      (List.mem_append_left _ (List.mem_append_left _ hp)))
  · intro c hc hS
    rw [hsplit]
    exact List.mem_append_left _ (List.mem_append_left _
      (List.mem_append_left _ (List.mem_append_right _
        (id_mem_of_not_mem_S condNodeId condMk S (fun _ _ => rfl) hc hS 0))))
  · intro m hm hS
    rw [hsplit]
    exact List.mem_append_left _ (List.mem_append_right _
      (id_mem_of_not_mem_S medNodeId medMk S (fun _ _ => rfl) hm hS 0))
  · intro e he hS
    rw [hsplit]
    exact List.mem_append_right _
      (id_mem_of_not_mem_S encNodeId encMk S (fun _ _ => rfl) he hS 0)

/-- C7, witness: the non-capped-resources theorem at a bundle with one
condition, one medication and one encounter, against the empty set: all
four derived identifiers appear among the produced nodes. -/
theorem c7_noncapped_resources_materialized_witness :
    "patient-p" ∈ (fhirToGraph oneOfEachBundle []).1.map Node.id ∧
      "condition-c1" ∈ (fhirToGraph oneOfEachBundle []).1.map Node.id ∧
      "med-m1" ∈ (fhirToGraph oneOfEachBundle []).1.map Node.id ∧
      "enc-e1" ∈ (fhirToGraph oneOfEachBundle []).1.map Node.id :=
  ⟨(c7_noncapped_resources_materialized oneOfEachBundle []).1 (by decide),
    (c7_noncapped_resources_materialized oneOfEachBundle []).2.1
      { id := some "c1" } (by decide) (by decide),
    (c7_noncapped_resources_materialized oneOfEachBundle []).2.2.1
      { id := some "m1" } (by decide) (by decide),
    (c7_noncapped_resources_materialized oneOfEachBundle []).2.2.2
      { id := some "e1" } (by decide) (by decide)⟩

/-- C8, counterexample: the claim says a structurally malformed bundle
(missing required identifier fields) is reported as `MalformedBundle` with
no partial output. On a bundle whose patient and condition lack their
identifier fields, the mapper aborts nothing: it returns the full delta,
interpolating the missing identifiers as the literal string `undefined`. -/
theorem c8_malformed_bundle_full_output :
    (fhirToGraph malformedBundle []).1.map Node.id =
        ["patient-undefined", "condition-undefined"] ∧
      (fhirToGraph malformedBundle []).1 ≠ [] := by decide

/-- C8, amended: the mapper performs no structural validation and never
aborts: for every bundle, malformed or not, the mapping completes and the
delta against the empty set holds exactly one patient node plus one node
per condition, per medication, per encounter up to five, and per
observation up to twelve; there is no error value in the mapper. -/
theorem c8_mapper_total_node_count (b : FhirBundle) :
    (fhirToGraph b []).1.length =
      1 + b.conditions.length + min 12 b.observations.length +
        b.medications.length + min 5 b.encounters.length := by
  have hobs : (displayedObs b).length = min 12 b.observations.length := by
    rw [displayedObs, List.length_take]
    rw [show (sortObs b.observations).length = b.observations.length from
      (List.perm_insertionSort obsGE b.observations).length_eq]
  have hpat : patientNodes b [] =
      [{ id := patientNodeId b, x := 600, y := 400 }] := by
    rw [patientNodes, if_neg (List.not_mem_nil _)]
  simp [fhirToGraph, List.length_append, hpat, condNodes, obsNodes, medNodes,
    encNodes, guardedNodes_length_nil, hobs, List.length_take]
  omega

/-- C9: the ranking view is a stable sort by severity with red (critical)
before orange (at-risk) before green (stable): the output is a permutation
of the input, sorted by the severity order, the subsequence of patients of
any fixed severity keeps its input order, and the concrete list
`[A critical, B stable, C critical, D at-risk]` ranks to `[A, C, D, B]`. -/
theorem c9_ranking_stable_sort :
    (∀ ps : List PatientSeverity, List.Perm (sortPatients ps) ps) ∧
      (∀ ps : List PatientSeverity, List.Sorted patientLE (sortPatients ps)) ∧
      (∀ (ps : List PatientSeverity) (s : SeverityColor),
          (sortPatients ps).filter (fun p => decide (p.severity = s)) =
            ps.filter (fun p => decide (p.severity = s))) ∧
      sortPatients
          [{ id := "A", severity := .red }, { id := "B", severity := .green },
            { id := "C", severity := .red }, { id := "D", severity := .orange }] =
        [{ id := "A", severity := .red }, { id := "C", severity := .red },
          { id := "D", severity := .orange }, { id := "B", severity := .green }] := by
  refine ⟨fun ps => List.perm_insertionSort _ _,
    fun ps => List.sorted_insertionSort _ _, ?_, by decide⟩
  intro ps s
  apply filter_insertionSort
  intro a b ha hb
  simp only [decide_eq_true_iff] at ha hb
  unfold patientLE
  rw [ha, hb]

/-- C10, counterexample: the claim says a timestamp-less observation sorts
strictly older than every observation with a real timestamp and is excluded
first. On a bundle whose twelve dated observations are all pre-1970
(negative parsed timestamps), the timestamp-less observation (epoch 0) is
the most recent: it heads the displayed list while the dated observation at
epoch -12 is the one excluded. -/
theorem c10_pre_epoch_counterexample :
    oMk "n" none ∈ displayedObs preEpochBundle ∧
      (displayedObs preEpochBundle).head? = some (oMk "n" none) ∧
      oMk "11" (some (-12)) ∉ displayedObs preEpochBundle ∧
      oMk "11" (some (-12)) ∈ preEpochBundle.observations := by decide

/-- C10, amended: a missing `effectiveDateTime` is given the epoch-zero
timestamp, which sorts strictly older than every observation with a
positive parsed timestamp (dates after 1970); in particular, when at least
twelve observations of the bundle carry positive timestamps, a
timestamp-less observation is never among the displayed twelve. -/
theorem c10_missing_timestamp_epoch_zero (b : FhirBundle)
    (o : FhirObservation) (_ho : o ∈ b.observations)
    (hnone : o.effectiveDateTime = none) :
    (∀ o' : FhirObservation, 0 < getTime o' → getTime o < getTime o') ∧
      (12 ≤ b.observations.countP (fun x => decide (0 < getTime x)) →
        o ∉ displayedObs b) := by
  have h0 : getTime o = 0 := by simp [getTime, hnone]
  constructor
  · intro o' h
    rw [h0]
    exact h
  · intro hcnt
    have hmono : b.observations.countP (fun x => decide (0 < getTime x)) ≤
        b.observations.countP (fun x => decide (getTime o < getTime x)) := by
      apply List.countP_mono_left
      intro x _ hpx
      simp only [decide_eq_true_iff] at hpx ⊢
      rw [h0]
      exact hpx
    exact not_mem_take_sortObs _ _ _ (le_trans hcnt hmono)

/-- C10, witness: the epoch-zero theorem at a bundle with one
timestamp-less observation and twelve positively-timestamped ones: the
timestamp-less observation is not displayed. -/
theorem c10_missing_timestamp_epoch_zero_witness :
    12 ≤ positiveTimesBundle.observations.countP
        (fun x => decide (0 < getTime x)) ∧
      oMk "n" none ∉ displayedObs positiveTimesBundle :=
  ⟨by decide,
    (c10_missing_timestamp_epoch_zero positiveTimesBundle (oMk "n" none)
      (by decide) rfl).2 (by decide)⟩

end FhirBrush
